import Mathlib

/-!
Verification development for the spot-check generator (src/normalchecks.py).

The Python source is shallowly embedded below:
* string scanning primitives mirror the Python `str` operations the script
  uses (`in`, `split`, `rsplit`, `startswith`);
* the Category Classifier, Frame Resolver, Annotation Renderer, Legend
  Compositor and the Pipeline Orchestrator are translated function by
  function;
* external effects (aws/ffmpeg frame extraction, cv2 image decode, the
  file system) are modelled by an explicit environment and an explicit
  store from paths to file data;
* the cv2 drawing primitives (circle / line / putText / rectangle) are
  external library calls, so rendering is embedded as the exact list of
  primitive drawing commands the code issues, applied through an
  arbitrary interpretation of those primitives.
-/

namespace SpotChecks

/-! ## String primitives (Python `str` operations used by the script) -/

/-- Predicate `hasPre pat s` is Python `s.startswith(pat)` on character lists. -/
def hasPre : List Char → List Char → Bool
  | [], _ => true
  | _ :: _, [] => false
  | a :: as, b :: bs => a == b && hasPre as bs

/-- Python `s.split(pat)` for a non-empty separator `pat`:
non-overlapping, left-to-right. Structural recursion on a fuel argument
that every call site instantiates with the length of the scanned list,
which is always enough because each step consumes at least one character. -/
def splitOnAux (pat : List Char) : Nat → List Char → List Char → List (List Char)
  | _, [], acc => [acc.reverse]
  | 0, s, acc => [acc.reverse ++ s]
  | fuel + 1, c :: rest, acc =>
    if hasPre pat (c :: rest) then
      acc.reverse :: splitOnAux pat fuel (List.drop (pat.length - 1) rest) []
    else
      splitOnAux pat fuel rest (c :: acc)

/-- Python `s.split(pat)` (only used with non-empty `pat`). -/
def splitOnCL (pat s : List Char) : List (List Char) :=
  splitOnAux pat s.length s []

/-- Python substring test `pat in s` (for non-empty `pat`): `s.split(pat)`
has more than one part exactly when `pat` occurs in `s`. -/
def pyIn (pat s : List Char) : Bool :=
  1 < (splitOnCL pat s).length

/-- Python `int(s)` on a decimal string: optional sign followed by digits;
any other shape raises `ValueError`, modelled as `none`. -/
def pyInt? (s : List Char) : Option Int :=
  match s with
  | '-' :: rest =>
    if rest ≠ [] ∧ rest.all Char.isDigit then
      some (-(Nat.ofDigits 10 ((rest.map (fun c => c.toNat - 48)).reverse) : Int))
    else none
  | _ =>
    if s ≠ [] ∧ s.all Char.isDigit then
      some ((Nat.ofDigits 10 ((s.map (fun c => c.toNat - 48)).reverse) : Int))
    else none

/-! ## Category Classifier (inline in `main`, lines 213–239) -/

/-- The hardcoded `category_patterns` list from `main`. -/
def category_patterns : List String :=
  ["motorcycle_repair", "assembling_motor_starter", "adjusting_vehicle_tire",
   "baking", "candy", "clay", "ac_maintenance", "fan_assembly",
   "professionalchef", "panel_assembly", "construction_wirework",
   "building_bookshelf", "air_purifier_deep_clean", "installing_car_speakers",
   "mosaic_number_tiles", "washing_clothes"]

/-- Left part of Python `video_key.rsplit('/', 1)` (only used when `'/'`
occurs in the key). -/
def rsplitSlashLeft (s : List Char) : List Char :=
  (s.reverse.drop ((s.reverse.takeWhile (fun c => c != '/')).length + 1)).reverse

/-- Right part of Python `video_key.rsplit('/', 1)`. -/
def rsplitSlashRight (s : List Char) : List Char :=
  (s.reverse.takeWhile (fun c => c != '/')).reverse

/-- The category classification logic of `main` (lines 213–239):
slash split first, then the ordered prefix patterns, then the `_seq`
heuristic; `none` models the "could not determine category" skip. -/
def classify (video_key : String) : Option (String × String) :=
  let kl := video_key.toList
  if kl.contains '/' then
    some ((rsplitSlashLeft kl).asString, (rsplitSlashRight kl).asString)
  else
    match category_patterns.find? (fun p => hasPre p.toList kl) with
    | some p => some (p, video_key)
    | none =>
      let parts := splitOnCL ['_', 's', 'e', 'q'] kl
      if 1 < parts.length then some ((parts.headD []).asString, video_key)
      else none

/-! ## Frames and cv2 drawing primitives -/

/-- BGR pixel value as cv2 stores it. -/
abbrev Color := Nat × Nat × Nat

/-- A frame: `h, w = frame.shape[:2]` plus the pixel grid. -/
structure Frame where
  h : Nat
  w : Nat
  pix : Nat → Nat → Color

/-- One cv2 primitive call issued by the script. Font scale is encoded in
tenths (cv2 receives 0.6 / 0.5 / 0.4, the script's only scales); the font
face argument is always `cv2.FONT_HERSHEY_SIMPLEX = 0`. A thickness of
`-1` is cv2's filled mode. -/
inductive DrawCmd where
  | circle (center : Int × Int) (radius : Int) (color : Color) (thickness : Int)
  | line (p1 p2 : Int × Int) (color : Color) (thickness : Int)
  | text (s : String) (org : Int × Int) (font : Nat) (scaleTenths : Nat)
      (color : Color) (thickness : Int)
  | rect (p1 p2 : Int × Int) (color : Color) (thickness : Int)
deriving DecidableEq

/-- An interpretation of the cv2 primitives: how one primitive call mutates
a frame. cv2 itself is an external collaborator, so rendering facts are
proved for every interpretation. -/
abbrev Interp := DrawCmd → Frame → Frame

/-- Apply a list of primitive calls in order. -/
def applyCmds (I : Interp) (cmds : List DrawCmd) (frame : Frame) : Frame :=
  cmds.foldl (fun f c => I c f) frame

/-! ## Annotation Renderer (`draw_annotations`, lines 53–85) -/

/-- The `colors` dict of `draw_annotations`, in its insertion order. -/
def colors : List (String × Color) :=
  [("obj1_positive_points", (255, 0, 255)),
   ("obj1_negative_points", (255, 0, 255)),
   ("obj2_positive_points", (0, 255, 255)),
   ("obj2_negative_points", (0, 255, 255)),
   ("positive_points", (0, 255, 0)),
   ("negative_points", (0, 0, 255))]

/-- Python `int(pt[i])`: truncation of a (possibly fractional) coordinate
toward zero. -/
def pyTrunc (q : Rat) : Int :=
  Int.tdiv q.num (q.den : Int)

/-- The cv2 calls `draw_annotations` issues for one coordinate pair of one
category key (lines 70–83): bounds check, then filled circle + white ring
+ "+" glyph for a key containing `"positive"`, else the two lines of an X. -/
def cmdsForPoint (w h : Nat) (key : String) (color : Color) (pt : Rat × Rat) :
    List DrawCmd :=
  let x : Int := pyTrunc pt.1
  let y : Int := pyTrunc pt.2
  if 0 ≤ x ∧ x < (w : Int) ∧ 0 ≤ y ∧ y < (h : Int) then
    if pyIn "positive".toList key.toList then
      [.circle (x, y) 12 color (-1),
       .circle (x, y) 12 (255, 255, 255) 2,
       .text "+" (x - 6, y + 6) 0 6 (255, 255, 255) 2]
    else
      [.line (x - 12, y - 12) (x + 12, y + 12) color 3,
       .line (x + 12, y - 12) (x - 12, y + 12) color 3]
  else []

/-- A PointSet: category key to list of coordinate pairs, in source order. -/
abbrev PointSet := List (String × List (Rat × Rat))

/-- All cv2 calls `draw_annotations` issues: the fixed `colors` vocabulary
is iterated in its insertion order, keys absent from `json_data` are
skipped (`if key not in json_data: continue`). -/
def drawCmds (w h : Nat) (json_data : PointSet) : List DrawCmd :=
  colors.foldl
    (fun acc kc =>
      match json_data.lookup kc.1 with
      | none => acc
      | some pts => acc ++ pts.flatMap (cmdsForPoint w h kc.1 kc.2))
    []

/-- Function `draw_annotations(frame, json_data)`: issue the drawing commands against
the frame under an interpretation `I` of the cv2 primitives. -/
def draw_annotations (I : Interp) (frame : Frame) (json_data : PointSet) :
    Frame :=
  applyCmds I (drawCmds frame.w frame.h json_data) frame

/-! ## Legend Compositor (`add_legend`, lines 88–114) -/

/-- The cv2 calls `add_legend` issues, in source order. -/
def legendCmds (video_name : String) (frame_num : Int) : List DrawCmd :=
  [.rect (10, 10) (450, 130) (0, 0, 0) (-1),
   .rect (10, 10) (450, 130) (255, 255, 255) 1,
   .text video_name (15, 30) 0 5 (255, 255, 255) 1,
   .text ("Frame: " ++ toString frame_num ++ " | Source: _annotated_720p")
     (15, 50) 0 4 (200, 200, 200) 1,
   .circle (25, 75) 8 (255, 0, 255) (-1),
   .text "Obj1 +/-" (40, 78) 0 4 (255, 0, 255) 1,
   .circle (150, 75) 8 (0, 255, 255) (-1),
   .text "Obj2 +/-" (165, 78) 0 4 (0, 255, 255) 1,
   .circle (25, 100) 8 (0, 255, 0) (-1),
   .text "Positive" (40, 103) 0 4 (0, 255, 0) 1,
   .circle (150, 100) 8 (0, 0, 255) (-1),
   .text "Negative" (165, 103) 0 4 (0, 0, 255) 1]

/-- Function `add_legend(frame, video_name, frame_num)` under an interpretation of
the cv2 primitives. -/
def add_legend (I : Interp) (frame : Frame) (video_name : String)
    (frame_num : Int) : Frame :=
  applyCmds I (legendCmds video_name frame_num) frame

/-! ## JSON values and record normalization (`main`, line 242) -/

/-- A JSON value, as `json.load` produces it: object keys are strings
(so the `str(k)` coercion in `main` is the identity on them). -/
inductive JsonV where
  | null
  | bool (b : Bool)
  | num (q : Rat)
  | str (s : String)
  | arr (xs : List JsonV)
  | obj (fields : List (String × JsonV))

/-- The three keys probed by `main`'s shape sniff
`any(k in video_data for k in [...])` (line 242). -/
def sniffKeys : List String :=
  ["positive_points", "negative_points", "obj1_positive_points"]

/-- The normalization expression of `main` line 242: a dict none of whose
keys is one of the three sniffed keys is kept as a frame-index mapping
with its keys passed through `str` (the identity, JSON keys being
strings); everything else is wrapped as `{'0': video_data}`. -/
def normalizeRecord (video_data : JsonV) : List (String × JsonV) :=
  match video_data with
  | .obj fields =>
    if sniffKeys.any (fun k => (fields.lookup k).isSome) then
      [("0", .obj fields)]
    else fields
  | vd => [("0", vd)]

/-! ## Frame Resolver (`process_video`, lines 126–131) -/

/-- Outcome of the frame-resolution step: `emptyRecord` is the
`"No frames in JSON"` early `return False`; `exnBadKey` is the
`ValueError` that `int(frame_nums[0])` raises on a non-numeric key. -/
inductive ResolveOut where
  | emptyRecord
  | exnBadKey
  | ok (frame_num : Int) (points : JsonV)

/-- Lines 126–131: `frame_nums = list(json_data.keys())`, fail when empty,
else `int(frame_nums[0])` paired with `json_data[frame_nums[0]]`. -/
def resolveFrame (json_data : List (String × JsonV)) : ResolveOut :=
  match json_data with
  | [] => .emptyRecord
  | (k, v) :: _ =>
    match pyInt? k.toList with
    | none => .exnBadKey
    | some n => .ok n v

/-! ## Reading a PointSet out of a JSON value at render time

`draw_annotations` receives `json_data[frame_nums[0]]`, an arbitrary JSON
value. It only touches the values at the six vocabulary keys; a present
vocabulary value that is not a list of (at least) pairs of numbers makes
the corresponding cv2 call raise, which the orchestrator catches. -/

/-- Read one vocabulary value as a coordinate list: Python iterates it and
runs `int(pt[0]), int(pt[1])`; a non-list value or an element without two
leading numbers raises (modelled as `none`). -/
def asPtList? : JsonV → Option (List (Rat × Rat))
  | .arr xs =>
    xs.mapM (fun pt =>
      match pt with
      | .arr (a :: b :: _) =>
        match a, b with
        | .num qa, .num qb => some (qa, qb)
        | _, _ => none
      | _ => none)
  | _ => none

/-- The cv2 calls of `draw_annotations(frame, v)` on a raw JSON value `v`:
for a dict, each present vocabulary key contributes its points (a
malformed present value raises, `none`); a list value supports the `in`
membership test but contains no vocabulary key, so nothing is drawn; a
string value turns `in` into a substring test (indexing then raises when
one matches); any other value makes `key not in json_data` itself raise. -/
def drawCmdsJ (w h : Nat) (v : JsonV) : Option (List DrawCmd) :=
  match v with
  | .obj fields =>
    colors.foldl
      (fun acc kc =>
        match acc with
        | none => none
        | some cs =>
          match fields.lookup kc.1 with
          | none => some cs
          | some pv =>
            match asPtList? pv with
            | none => none
            | some pts => some (cs ++ pts.flatMap (cmdsForPoint w h kc.1 kc.2)))
      (some [])
  | .arr _ => some []
  | .str s => if colors.any (fun kc => pyIn kc.1.toList s.toList) then none else some []
  | _ => none

/-! ## The pipeline (`process_video`, lines 117–170, and `main`) -/

/-- Contents of a file on disk: an extracted artifact either decodes to a
frame under `cv2.imread` or is unreadable as an image (`imread → None`). -/
inductive FileData where
  | image (f : Frame)
  | bad

/-- The local file system: path to file contents. -/
abbrev FS := String → Option FileData

/-- The external collaborators `process_video` calls out to:
`extract` models `extract_frame_from_s3` (aws presign + ffmpeg). Its
result is the subprocess success flag (`returncode == 0`) together with
the file the subprocess may have written at the output path — the flag
and the write are independent, as they are for a real subprocess. -/
structure Env where
  extract : String → Int → Bool × Option FileData

/-- The `S3_BASE` constant. -/
def S3_BASE : String := "s3://rellingxgdm-raw/rellingxgdm-raw/rellingxgdm-raw/CLIPPED"

/-- Path `os.path.join(output_dir, f"{video_name}_frame_temp.png")` (line 140). -/
def temp_path (output_dir video_name : String) : String :=
  output_dir ++ "/" ++ video_name ++ "_frame_temp.png"

/-- Path `os.path.join(output_dir, f"{video_name}_annotated_spot_check.png")`
(line 162). -/
def output_path (output_dir video_name : String) : String :=
  output_dir ++ "/" ++ video_name ++ "_annotated_spot_check.png"

/-- The stages of one entry's state machine, recorded as they run. -/
inductive Stage where
  | classifyS
  | resolveS
  | fetchS
  | decodeS
  | renderS
  | persistS
deriving DecidableEq

/-- How `process_video` returned: `True`, `False`, or by raising. -/
inductive PVOut where
  | success
  | failure
  | exn
deriving DecidableEq

/-- Result of one `process_video` call: its outcome, the file system it
leaves behind, and the trace of stages that ran. -/
structure PVRes where
  out : PVOut
  fs : FS
  trace : List Stage

/-- Function `process_video(category, video_name, json_data, output_dir)`
(lines 117–170), over an explicit environment and file system:
resolve the target frame, extract it next to the output, decode it,
draw annotations and legend, persist, then remove the temp artifact.
An early `return False` leaves the file system as it stands. -/
def process_video (env : Env) (I : Interp) (category video_name : String)
    (json_data : List (String × JsonV)) (output_dir : String) (fs : FS) :
    PVRes :=
  let s3_folder := S3_BASE ++ "/" ++ category ++ "/" ++ video_name
  match resolveFrame json_data with
  | .emptyRecord => ⟨.failure, fs, [.resolveS]⟩
  | .exnBadKey => ⟨.exn, fs, [.resolveS]⟩
  | .ok frame_num points =>
    let video_file := video_name ++ "_annotated_720p.mp4"
    let s3_video_path := s3_folder ++ "/" ++ video_file
    let frame_path := temp_path output_dir video_name
    let er := env.extract s3_video_path frame_num
    let fs1 : FS :=
      match er.2 with
      | some d => fun p => if p = frame_path then some d else fs p
      | none => fs
    if er.1 && (fs1 frame_path).isSome then
      match fs1 frame_path with
      | some (.image frame) =>
        match drawCmdsJ frame.w frame.h points with
        | none => ⟨.exn, fs1, [.resolveS, .fetchS, .decodeS, .renderS]⟩
        | some cmds =>
          let frame1 := applyCmds I cmds frame
          let frame2 := applyCmds I (legendCmds video_name frame_num) frame1
          let out_path := output_path output_dir video_name
          let fs2 : FS := fun p => if p = out_path then some (.image frame2) else fs1 p
          let fs3 : FS := fun p => if p = frame_path then none else fs2 p
          ⟨.success, fs3, [.resolveS, .fetchS, .decodeS, .renderS, .persistS]⟩
      | _ => ⟨.failure, fs1, [.resolveS, .fetchS, .decodeS]⟩
    else ⟨.failure, fs1, [.resolveS, .fetchS]⟩

/-- Result of processing one top-level entry in `main`'s loop. -/
structure StepRes where
  ok : Bool
  fs : FS
  trace : List Stage

/-- One iteration of `main`'s loop (lines 210–250): classify the key
(a failure skips the entry), normalize the record, run `process_video`
inside `try/except` — `True` counts as success, `False` and any raised
exception count as failure. -/
def mainStep (env : Env) (I : Interp) (output_dir video_key : String)
    (video_data : JsonV) (fs : FS) : StepRes :=
  match classify video_key with
  | none => ⟨false, fs, [.classifyS]⟩
  | some (category, video_name) =>
    let r := process_video env I category video_name
      (normalizeRecord video_data) output_dir fs
    match r.out with
    | .success => ⟨true, r.fs, .classifyS :: r.trace⟩
    | .failure => ⟨false, r.fs, .classifyS :: r.trace⟩
    | .exn => ⟨false, r.fs, .classifyS :: r.trace⟩

/-- Aggregate result of a `main` run: the two counters and the final
file system. -/
structure BatchRes where
  successful : Nat
  failed : Nat
  fs : FS

/-- Loop of `main` over the top-level entries, accumulating the
`successful` and `failed` counters. -/
def runBatch (env : Env) (I : Interp) (output_dir : String) :
    List (String × JsonV) → FS → BatchRes
  | [], fs => ⟨0, 0, fs⟩
  | (video_key, video_data) :: rest, fs =>
    let st := mainStep env I output_dir video_key video_data fs
    let r := runBatch env I output_dir rest st.fs
    if st.ok then ⟨r.successful + 1, r.failed, r.fs⟩
    else ⟨r.successful, r.failed + 1, r.fs⟩

/-! ## Shared constants for concrete runs -/

/-- The identity interpretation of the cv2 primitives (a draw call that
changes nothing); concrete runs below also use frames of fixed size. -/
def passI : Interp := fun _ f => f

/-- An empty file system. -/
def fs0 : FS := fun _ => none

/-- A 4×4 all-black frame. -/
def frame4 : Frame := ⟨4, 4, fun _ _ => (0, 0, 0)⟩

/-- An environment whose extraction always succeeds but always leaves an
artifact that is unreadable as an image. -/
def envBad : Env := ⟨fun _ _ => (true, some .bad)⟩

/-- An environment whose extraction always succeeds and writes a readable
4×4 frame. -/
def envGood : Env := ⟨fun _ _ => (true, some (.image frame4))⟩

/-! ## C4 — Category Classifier precedence -/

/-- C4: the Category Classifier applies its rules in strict precedence
order — a key containing `/` is split on the last occurrence before any
other rule; otherwise the first matching prefix from the fixed ordered
pattern list wins; otherwise a `_seq` split with more than one part makes
the first part the category; otherwise classification fails. In
particular `"baking/video_7"` gives `("baking", "video_7")`,
`"baking_seq3"` gives `("baking", "baking_seq3")` and
`"unknown_thing_xyz"` fails. -/
theorem classify_precedence :
    (classify "baking/video_7" = some ("baking", "video_7")) ∧
    (classify "baking_seq3" = some ("baking", "baking_seq3")) ∧
    (classify "unknown_thing_xyz" = none) ∧
    (∀ key : String, key.toList.contains '/' = true →
      classify key = some ((rsplitSlashLeft key.toList).asString,
        (rsplitSlashRight key.toList).asString)) ∧
    (∀ key : String, key.toList.contains '/' = false →
      ∀ p, category_patterns.find? (fun q => hasPre q.toList key.toList) = some p →
        classify key = some (p, key)) ∧
    (∀ key : String, key.toList.contains '/' = false →
      category_patterns.find? (fun q => hasPre q.toList key.toList) = none →
      1 < (splitOnCL ['_', 's', 'e', 'q'] key.toList).length →
      classify key =
        some (((splitOnCL ['_', 's', 'e', 'q'] key.toList).headD []).asString, key)) ∧
    (∀ key : String, key.toList.contains '/' = false →
      category_patterns.find? (fun q => hasPre q.toList key.toList) = none →
      ¬ 1 < (splitOnCL ['_', 's', 'e', 'q'] key.toList).length →
      classify key = none) := by
  refine ⟨by decide, by decide, by decide, ?_, ?_, ?_, ?_⟩
  · intro key h
    have h' : '/' ∈ key.data := by simpa using h
    simp [classify, String.toList, h']
  · intro key h p hp
    have h' : '/' ∉ key.data := by simpa using h
    simp only [String.toList] at hp
    simp [classify, String.toList, h', hp]
  · intro key h hf hs
    have h' : '/' ∉ key.data := by simpa using h
    simp only [String.toList] at hf hs
    simp [classify, String.toList, h', hf, hs]
  · intro key h hf hs
    have h' : '/' ∉ key.data := by simpa using h
    simp only [String.toList] at hf hs
    simp [classify, String.toList, h', hf, hs]

/-- Witness for C4: the slash rule applied at a concrete key. -/
theorem classify_precedence_witness : classify "cat/vid" = some ("cat", "vid") :=
  (classify_precedence.2.2.2.1 "cat/vid" (by decide)).trans (by decide)

/-! ## C1 — PointSet shape detection in `main` -/

/-- C1 counterexample: the record `{"obj2_positive_points": []}` contains a
key from the six-key category vocabulary, yet `main`'s shape sniff (which
probes only `positive_points`, `negative_points`, `obj1_positive_points`)
does NOT treat it as a PointSet: it is kept as a frame-index mapping
instead of being wrapped under the implicit frame index 0. -/
theorem sniff_misses_vocab_key :
    (colors.any
      (fun kc => (([("obj2_positive_points", JsonV.arr [])] :
        List (String × JsonV)).lookup kc.1).isSome) = true) ∧
    normalizeRecord (.obj [("obj2_positive_points", .arr [])]) ≠
      [("0", .obj [("obj2_positive_points", .arr [])])] := by
  refine ⟨by decide, ?_⟩
  intro h
  have h2 : ([("obj2_positive_points", JsonV.arr [])] : List (String × JsonV)) =
      [("0", .obj [("obj2_positive_points", .arr [])])] :=
    (rfl : normalizeRecord (.obj [("obj2_positive_points", .arr [])]) =
      [("obj2_positive_points", JsonV.arr [])]).symm.trans h
  have h3 : ("obj2_positive_points" : String) = "0" :=
    congrArg (fun l => (l.headD ("", JsonV.null)).1) h2
  exact absurd h3 (by decide)

/-- C1 (amended): a top-level record is wrapped as a single implicit frame
index 0 exactly when it is not a JSON object or contains at least one of
the THREE sniffed keys `positive_points`, `negative_points`,
`obj1_positive_points`; an object with none of those three keys — even
one containing other vocabulary keys such as `obj2_positive_points` — is
kept as a frame-index mapping whose keys (already strings) pass through
`str` unchanged. -/
theorem sniff_normalization :
    (∀ fields : List (String × JsonV),
      sniffKeys.any (fun k => (fields.lookup k).isSome) = true →
      normalizeRecord (.obj fields) = [("0", .obj fields)]) ∧
    (∀ fields : List (String × JsonV),
      sniffKeys.any (fun k => (fields.lookup k).isSome) = false →
      normalizeRecord (.obj fields) = fields) ∧
    (∀ vd : JsonV, (∀ fields, vd ≠ .obj fields) →
      normalizeRecord vd = [("0", vd)]) := by
  refine ⟨?_, ?_, ?_⟩
  · intro fields h
    simp [normalizeRecord, h]
  · intro fields h
    simp [normalizeRecord, h]
  · intro vd h
    cases vd with
    | obj fields => exact absurd rfl (h fields)
    | _ => rfl

/-- Witness for the amended C1: a record with only `positive_points` is
wrapped at frame index 0; one with only `obj2_positive_points` is not. -/
theorem sniff_normalization_witness :
    normalizeRecord (.obj [("positive_points", .arr [])]) =
      [("0", .obj [("positive_points", .arr [])])] ∧
    normalizeRecord (.obj [("obj2_positive_points", .arr [])]) =
      [("obj2_positive_points", JsonV.arr [])] :=
  ⟨sniff_normalization.1 [("positive_points", .arr [])] (by decide),
   sniff_normalization.2.1 [("obj2_positive_points", .arr [])] (by decide)⟩

/-! ## C3 — Frame Resolver -/

/-- C3: the Frame Resolver fails as "no frames in JSON" exactly on a
record with no keys; on a record whose first key parses as an integer it
returns that integer paired with the key's value, and every frame index
it ever returns is the integer coercion of one of the record's own keys,
never fabricated. -/
theorem frame_resolver_spec :
    (∀ r : List (String × JsonV), resolveFrame r = .emptyRecord ↔ r = []) ∧
    (∀ (k : String) (v : JsonV) (rest : List (String × JsonV)) (n : Int),
      pyInt? k.toList = some n →
      resolveFrame ((k, v) :: rest) = .ok n v) ∧
    (∀ (r : List (String × JsonV)) (n : Int) (v : JsonV),
      resolveFrame r = .ok n v →
      ∃ k, (k, v) ∈ r ∧ pyInt? k.toList = some n) := by
  refine ⟨?_, ?_, ?_⟩
  · intro r
    constructor
    · intro h
      cases r with
      | nil => rfl
      | cons e rest =>
        rcases e with ⟨k, v⟩
        simp only [resolveFrame] at h
        rcases hp : pyInt? k.toList with _ | n <;> rw [hp] at h <;> exact absurd h (by simp)
    · rintro rfl
      rfl
  · intro k v rest n hp
    simp only [String.toList] at hp
    simp [resolveFrame, hp]
  · intro r n v h
    cases r with
    | nil => exact absurd h (by simp [resolveFrame])
    | cons e rest =>
      rcases e with ⟨k, v'⟩
      simp only [resolveFrame] at h
      rcases hp : pyInt? k.toList with _ | m <;> rw [hp] at h
      · exact absurd h (by simp)
      · rcases h with ⟨rfl, rfl⟩
        exact ⟨k, List.mem_cons_self _ _, hp⟩

/-- Witness for C3: the record `{"120": {}}` resolves to frame 120. -/
theorem frame_resolver_spec_witness :
    resolveFrame [("120", .obj [])] = .ok 120 (.obj []) :=
  frame_resolver_spec.2.1 "120" (.obj []) [] 120 (by decide)

/-! ## Renderer lemmas -/

/-- The renderer's bounds check (line 74) as a boolean on one coordinate
pair: both truncated coordinates inside `[0,w) × [0,h)`. -/
def inFrame (w h : Nat) (pt : Rat × Rat) : Bool :=
  decide (0 ≤ pyTrunc pt.1 ∧ pyTrunc pt.1 < (w : Int) ∧
    0 ≤ pyTrunc pt.2 ∧ pyTrunc pt.2 < (h : Int))

lemma lookup_map_snd {α β : Type} (f : α → β) :
    ∀ (l : List (String × α)) (k : String),
    (l.map (fun e => (e.1, f e.2))).lookup k = (l.lookup k).map f := by
  intro l k
  induction l with
  | nil => rfl
  | cons e rest ih =>
    rcases e with ⟨k', v⟩
    simp only [List.map_cons, List.lookup]
    cases hk : (k == k') <;> simp [hk, ih]

lemma mem_of_lookup {α : Type} :
    ∀ (l : List (String × α)) (k : String) (v : α),
    l.lookup k = some v → (k, v) ∈ l := by
  intro l
  induction l with
  | nil => intro k v h; exact absurd h (by simp)
  | cons e rest ih =>
    intro k v h
    rcases e with ⟨k', v'⟩
    simp only [List.lookup] at h
    cases hk : (k == k') <;> rw [hk] at h
    · exact List.mem_cons_of_mem _ (ih k v h)
    · cases h
      have : k = k' := eq_of_beq hk
      subst this
      exact List.mem_cons_self _ _

lemma cmdsForPoint_oob (w h : Nat) (key : String) (color : Color)
    (pt : Rat × Rat) (hb : inFrame w h pt = false) :
    cmdsForPoint w h key color pt = [] := by
  have hc := of_decide_eq_false hb
  simp only [cmdsForPoint]
  rw [if_neg hc]

lemma flatMap_filter_inFrame (w h : Nat) (key : String) (color : Color) :
    ∀ pts : List (Rat × Rat),
    pts.flatMap (cmdsForPoint w h key color) =
      (pts.filter (inFrame w h)).flatMap (cmdsForPoint w h key color) := by
  intro pts
  induction pts with
  | nil => rfl
  | cons p rest ih =>
    cases hb : inFrame w h p
    · simp [List.filter_cons, hb, cmdsForPoint_oob w h key color p hb, ih]
    · simp [List.filter_cons, hb]
      exact ih

lemma drawCmds_filter_inFrame (w h : Nat) (jd : PointSet) :
    drawCmds w h jd =
      drawCmds w h (jd.map (fun e => (e.1, e.2.filter (inFrame w h)))) := by
  unfold drawCmds
  generalize [] = acc
  induction colors generalizing acc with
  | nil => rfl
  | cons kc rest ih =>
    simp only [List.foldl_cons]
    rw [lookup_map_snd]
    cases hl : jd.lookup kc.1 with
    | none => exact ih _
    | some pts =>
      simp only [Option.map_some', ← flatMap_filter_inFrame]
      exact ih _

lemma drawCmds_empty_vals (w h : Nat) (jd : PointSet)
    (hj : ∀ e ∈ jd, e.2 = ([] : List (Rat × Rat))) :
    drawCmds w h jd = [] := by
  unfold drawCmds
  have H : ∀ (cols : List (String × Color)) (acc : List DrawCmd),
      cols.foldl
        (fun acc kc =>
          match jd.lookup kc.1 with
          | none => acc
          | some pts => acc ++ pts.flatMap (cmdsForPoint w h kc.1 kc.2)) acc = acc := by
    intro cols
    induction cols with
    | nil => intro acc; rfl
    | cons kc rest ih =>
      intro acc
      simp only [List.foldl_cons]
      cases hl : jd.lookup kc.1 with
      | none => exact ih _
      | some pts =>
        have hp : pts = [] := hj _ (mem_of_lookup jd kc.1 pts hl)
        subst hp
        simp only [List.flatMap_nil, List.append_nil]
        exact ih _
  exact H colors []

/-! ## C5 — out-of-bounds points are skipped silently -/

/-- C5: the renderer's command stream is unchanged when every
out-of-bounds coordinate pair is removed from the PointSet — an
out-of-bounds point produces no cv2 call at all — and on a PointSet all
of whose points are out of bounds, rendering returns the frame with every
pixel untouched, under every interpretation of the cv2 primitives. -/
theorem renderer_skips_oob :
    (∀ (w h : Nat) (json_data : PointSet),
      drawCmds w h json_data =
        drawCmds w h (json_data.map (fun e => (e.1, e.2.filter (inFrame w h))))) ∧
    (∀ (I : Interp) (frame : Frame) (json_data : PointSet),
      (∀ e ∈ json_data, ∀ pt ∈ e.2, inFrame frame.w frame.h pt = false) →
      draw_annotations I frame json_data = frame) := by
  refine ⟨drawCmds_filter_inFrame, ?_⟩
  intro I frame jd hoob
  have h1 : drawCmds frame.w frame.h jd = [] := by
    rw [drawCmds_filter_inFrame]
    apply drawCmds_empty_vals
    intro e he
    rcases List.mem_map.mp he with ⟨e', he', rfl⟩
    simp only
    rw [List.filter_eq_nil_iff]
    intro pt hpt
    simp [hoob e' he' pt hpt]
  unfold draw_annotations
  rw [h1]
  rfl

/-- Witness for C5: a negative-coordinate point on a 4×4 frame draws
nothing. -/
theorem renderer_skips_oob_witness :
    draw_annotations passI frame4 [("positive_points", [(-5, 10)])] = frame4 :=
  renderer_skips_oob.2 passI frame4 [("positive_points", [(-5, 10)])] (by decide)

/-! ## C6 — marker shapes per category key, unknown keys ignored -/

lemma vocab_any_of_mem {kc : String × Color} (hk : kc ∈ colors) :
    colors.any (fun e => e.1 == kc.1) = true :=
  List.any_eq_true.mpr ⟨kc, hk, beq_self_eq_true kc.1⟩

lemma lookup_filter_vocab (jd : PointSet) (kc : String × Color)
    (hk : kc ∈ colors) :
    (jd.filter (fun e => colors.any (fun c => c.1 == e.1))).lookup kc.1 =
      jd.lookup kc.1 := by
  induction jd with
  | nil => rfl
  | cons e rest ih =>
    rcases e with ⟨k', v⟩
    cases hp : colors.any (fun c => c.1 == k')
    · rw [List.filter_cons_of_neg (by simp [hp])]
      have hne : (kc.1 == k') = false := by
        cases hq : (kc.1 == k')
        · rfl
        · have : kc.1 = k' := eq_of_beq hq
          rw [← this] at hp
          rw [vocab_any_of_mem hk] at hp
          cases hp
      rw [ih]
      simp only [List.lookup, hne]
    · rw [List.filter_cons_of_pos (by simp [hp])]
      simp only [List.lookup]
      cases hq : (kc.1 == k')
      · exact ih
      · rfl

lemma drawCmds_filter_vocab (w h : Nat) (jd : PointSet) :
    drawCmds w h jd =
      drawCmds w h (jd.filter (fun e => colors.any (fun kc => kc.1 == e.1))) := by
  unfold drawCmds
  have H : ∀ (cols : List (String × Color)), (∀ kc ∈ cols, kc ∈ colors) →
      ∀ acc : List DrawCmd,
      cols.foldl
        (fun acc kc =>
          match jd.lookup kc.1 with
          | none => acc
          | some pts => acc ++ pts.flatMap (cmdsForPoint w h kc.1 kc.2)) acc =
      cols.foldl
        (fun acc kc =>
          match (jd.filter (fun e => colors.any (fun c => c.1 == e.1))).lookup kc.1 with
          | none => acc
          | some pts => acc ++ pts.flatMap (cmdsForPoint w h kc.1 kc.2)) acc := by
    intro cols
    induction cols with
    | nil => intro _ acc; rfl
    | cons kc rest ih =>
      intro hsub acc
      simp only [List.foldl_cons]
      rw [lookup_filter_vocab jd kc (hsub kc (List.mem_cons_self _ _))]
      cases hl : jd.lookup kc.1 with
      | none => exact ih (fun c hc => hsub c (List.mem_cons_of_mem _ hc)) _
      | some pts => exact ih (fun c hc => hsub c (List.mem_cons_of_mem _ hc)) _
  exact H colors (fun _ hc => hc) []

/-- C6: for a vocabulary key with an in-bounds point, the renderer issues
exactly a filled disc of radius 12 in the category color, a 2px white
ring, and a centered white "+" glyph when the key is one of the three
keys containing "positive", and exactly the two crossing ±12px line
segments of thickness 3 in the category color otherwise; and the command
stream ignores every key outside the six-key vocabulary. -/
theorem renderer_marker_shapes :
    (∀ (w h : Nat) (key : String) (color : Color) (pt : Rat × Rat),
      (key, color) ∈ colors → inFrame w h pt = true →
      cmdsForPoint w h key color pt =
        if key ∈ (["obj1_positive_points", "obj2_positive_points",
            "positive_points"] : List String) then
          [.circle (pyTrunc pt.1, pyTrunc pt.2) 12 color (-1),
           .circle (pyTrunc pt.1, pyTrunc pt.2) 12 (255, 255, 255) 2,
           .text "+" (pyTrunc pt.1 - 6, pyTrunc pt.2 + 6) 0 6 (255, 255, 255) 2]
        else
          [.line (pyTrunc pt.1 - 12, pyTrunc pt.2 - 12)
             (pyTrunc pt.1 + 12, pyTrunc pt.2 + 12) color 3,
           .line (pyTrunc pt.1 + 12, pyTrunc pt.2 - 12)
             (pyTrunc pt.1 - 12, pyTrunc pt.2 + 12) color 3]) ∧
    (∀ (w h : Nat) (json_data : PointSet),
      drawCmds w h json_data =
        drawCmds w h (json_data.filter
          (fun e => colors.any (fun kc => kc.1 == e.1)))) := by
  refine ⟨?_, drawCmds_filter_vocab⟩
  intro w h key color pt hmem hin
  have hc := of_decide_eq_true hin
  simp only [colors, List.mem_cons, List.not_mem_nil, or_false,
    Prod.mk.injEq] at hmem
  rcases hmem with ⟨rfl, rfl⟩ | ⟨rfl, rfl⟩ | ⟨rfl, rfl⟩ | ⟨rfl, rfl⟩ |
    ⟨rfl, rfl⟩ | ⟨rfl, rfl⟩
  · simp only [cmdsForPoint, if_pos hc]
    rw [if_pos (show pyIn "positive".toList "obj1_positive_points".toList = true
          from by decide),
        if_pos (show ("obj1_positive_points" : String) ∈
          (["obj1_positive_points", "obj2_positive_points", "positive_points"] :
            List String) from by decide)]
  · simp only [cmdsForPoint, if_pos hc]
    rw [if_neg (show ¬ pyIn "positive".toList "obj1_negative_points".toList = true
          from by decide),
        if_neg (show ¬ ("obj1_negative_points" : String) ∈
          (["obj1_positive_points", "obj2_positive_points", "positive_points"] :
            List String) from by decide)]
  · simp only [cmdsForPoint, if_pos hc]
    rw [if_pos (show pyIn "positive".toList "obj2_positive_points".toList = true
          from by decide),
        if_pos (show ("obj2_positive_points" : String) ∈
          (["obj1_positive_points", "obj2_positive_points", "positive_points"] :
            List String) from by decide)]
  · simp only [cmdsForPoint, if_pos hc]
    rw [if_neg (show ¬ pyIn "positive".toList "obj2_negative_points".toList = true
          from by decide),
        if_neg (show ¬ ("obj2_negative_points" : String) ∈
          (["obj1_positive_points", "obj2_positive_points", "positive_points"] :
            List String) from by decide)]
  · simp only [cmdsForPoint, if_pos hc]
    rw [if_pos (show pyIn "positive".toList "positive_points".toList = true
          from by decide),
        if_pos (show ("positive_points" : String) ∈
          (["obj1_positive_points", "obj2_positive_points", "positive_points"] :
            List String) from by decide)]
  · simp only [cmdsForPoint, if_pos hc]
    rw [if_neg (show ¬ pyIn "positive".toList "negative_points".toList = true
          from by decide),
        if_neg (show ¬ ("negative_points" : String) ∈
          (["obj1_positive_points", "obj2_positive_points", "positive_points"] :
            List String) from by decide)]

/-- Witness for C6: a green filled circle with white ring and "+" glyph at
(50,50) for `positive_points` on a 100×100 frame. -/
theorem renderer_marker_shapes_witness :
    cmdsForPoint 100 100 "positive_points" (0, 255, 0) (50, 50) =
      [.circle (50, 50) 12 (0, 255, 0) (-1),
       .circle (50, 50) 12 (255, 255, 255) 2,
       .text "+" (44, 56) 0 6 (255, 255, 255) 2] :=
  (renderer_marker_shapes.1 100 100 "positive_points" (0, 255, 0) (50, 50)
    (by decide) (by decide)).trans (by decide)

/-! ## C8 — rendering is deterministic -/

/-- C8: the Annotation Renderer is a pure function of the frame and the
PointSet — rendering the same PointSet onto two identical frames (equal
dimensions, pixel-for-pixel equal contents), with no legend step in
between, gives identical output frames under any interpretation of the
cv2 primitives. -/
theorem renderer_deterministic :
    ∀ (I : Interp) (f1 f2 : Frame) (json_data : PointSet),
    f1.h = f2.h → f1.w = f2.w → (∀ x y, f1.pix x y = f2.pix x y) →
    draw_annotations I f1 json_data = draw_annotations I f2 json_data := by
  intro I f1 f2 jd hh hw hp
  have : f1 = f2 := by
    cases f1 with
    | mk h1 w1 p1 =>
      cases f2 with
      | mk h2 w2 p2 =>
        simp only at hh hw
        subst hh
        subst hw
        have : p1 = p2 := funext fun x => funext fun y => hp x y
        rw [this]
  rw [this]

/-- Witness for C8: two syntactically identical 2×2 frames render to the
same result. -/
theorem renderer_deterministic_witness :
    draw_annotations passI ⟨2, 2, fun _ _ => (9, 9, 9)⟩
        [("positive_points", [(1, 1)])] =
      draw_annotations passI ⟨2, 2, fun _ _ => (9, 9, 9)⟩
        [("positive_points", [(1, 1)])] :=
  renderer_deterministic passI _ _ [("positive_points", [(1, 1)])]
    rfl rfl (fun _ _ => rfl)

/-! ## Pipeline lemmas -/

/-- Case analysis on one `process_video` run: either it succeeds, and then
the temp artifact is gone from the file system it leaves, or it returns
`False`, or it raises. -/
lemma pv_cases (env : Env) (I : Interp) (c v : String)
    (jd : List (String × JsonV)) (out : String) (fs : FS) :
    ((process_video env I c v jd out fs).out = .success ∧
      (process_video env I c v jd out fs).fs (temp_path out v) = none) ∨
    (process_video env I c v jd out fs).out = .failure ∨
    (process_video env I c v jd out fs).out = .exn := by
  unfold process_video
  cases hr : resolveFrame jd with
  | emptyRecord => right; left; rfl
  | exnBadKey => right; right; rfl
  | ok n pts =>
    dsimp only
    split
    · split
      · split
        · right; right; rfl
        · left
          exact ⟨rfl, by simp⟩
      · right; left; rfl
    · right; left; rfl

/-- A `process_video` run never touches the file system outside the temp
artifact path and the output image path of its video name. -/
lemma pv_footprint (env : Env) (I : Interp) (c v : String)
    (jd : List (String × JsonV)) (out : String) (fs : FS) (p : String)
    (hp1 : p ≠ temp_path out v) (hp2 : p ≠ output_path out v) :
    (process_video env I c v jd out fs).fs p = fs p := by
  unfold process_video
  cases hr : resolveFrame jd with
  | emptyRecord => rfl
  | exnBadKey => rfl
  | ok n pts =>
    dsimp only
    cases he : (env.extract (S3_BASE ++ "/" ++ c ++ "/" ++ v ++ "/" ++
        (v ++ "_annotated_720p.mp4")) n).2 with
    | none =>
      split
      · split
        · split
          · rfl
          · simp [hp1, hp2]
        · rfl
      · rfl
    | some d =>
      split
      · split
        · split
          · simp [hp1]
          · simp [hp1, hp2]
        · simp [hp1]
      · simp [hp1]

/-- The trace of stages a `process_video` run can leave. -/
lemma pv_trace_cases (env : Env) (I : Interp) (c v : String)
    (jd : List (String × JsonV)) (out : String) (fs : FS) :
    (process_video env I c v jd out fs).trace = [.resolveS] ∨
    (process_video env I c v jd out fs).trace = [.resolveS, .fetchS] ∨
    (process_video env I c v jd out fs).trace =
      [.resolveS, .fetchS, .decodeS] ∨
    (process_video env I c v jd out fs).trace =
      [.resolveS, .fetchS, .decodeS, .renderS] ∨
    (process_video env I c v jd out fs).trace =
      [.resolveS, .fetchS, .decodeS, .renderS, .persistS] := by
  unfold process_video
  cases hr : resolveFrame jd with
  | emptyRecord => left; rfl
  | exnBadKey => left; rfl
  | ok n pts =>
    dsimp only
    split
    · split
      · split
        · right; right; right; left; rfl
        · right; right; right; right; rfl
      · right; right; left; rfl
    · right; left; rfl

/-! ## C9 — each entry increments exactly one counter -/

/-- C9: after the orchestrator processes a batch, the two counters cover
the input exactly: `successful + failed` equals the number of top-level
entries in the input document. -/
theorem counters_cover_entries :
    ∀ (env : Env) (I : Interp) (output_dir : String)
      (entries : List (String × JsonV)) (fs : FS),
    (runBatch env I output_dir entries fs).successful +
      (runBatch env I output_dir entries fs).failed = entries.length := by
  intro env I out entries
  induction entries with
  | nil => intro fs; rfl
  | cons e rest ih =>
    intro fs
    rcases e with ⟨k, v⟩
    have H := ih (mainStep env I out k v fs).fs
    simp only [runBatch]
    cases hok : (mainStep env I out k v fs).ok <;>
      simp only [hok, Bool.false_eq_true, if_false, if_true, List.length_cons] <;>
      omega

/-! ## C7 — failures are entry-local, the batch never aborts -/

/-- C7: processing is entry-local — the counters and final file system of
a batch decompose over any split of the entry list (so the batch never
aborts early); an entry whose step fails adds exactly one to the failure
counter while the remaining entries are still processed; and within one
entry no stage ever appears twice (no retries). -/
theorem failures_entry_local :
    (∀ (env : Env) (I : Interp) (out : String)
        (xs ys : List (String × JsonV)) (fs : FS),
      (runBatch env I out (xs ++ ys) fs).successful =
        (runBatch env I out xs fs).successful +
          (runBatch env I out ys (runBatch env I out xs fs).fs).successful ∧
      (runBatch env I out (xs ++ ys) fs).failed =
        (runBatch env I out xs fs).failed +
          (runBatch env I out ys (runBatch env I out xs fs).fs).failed ∧
      (runBatch env I out (xs ++ ys) fs).fs =
        (runBatch env I out ys (runBatch env I out xs fs).fs).fs) ∧
    (∀ (env : Env) (I : Interp) (out k : String) (v : JsonV)
        (rest : List (String × JsonV)) (fs : FS),
      (mainStep env I out k v fs).ok = false →
      (runBatch env I out ((k, v) :: rest) fs).failed =
        (runBatch env I out rest (mainStep env I out k v fs).fs).failed + 1 ∧
      (runBatch env I out ((k, v) :: rest) fs).successful =
        (runBatch env I out rest (mainStep env I out k v fs).fs).successful ∧
      (runBatch env I out ((k, v) :: rest) fs).fs =
        (runBatch env I out rest (mainStep env I out k v fs).fs).fs) ∧
    (∀ (env : Env) (I : Interp) (out k : String) (v : JsonV) (fs : FS),
      (mainStep env I out k v fs).trace.Nodup) := by
  refine ⟨?_, ?_, ?_⟩
  · intro env I out xs
    induction xs with
    | nil => intro ys fs; simp [runBatch]
    | cons e xs' ih =>
      intro ys fs
      rcases e with ⟨k, v⟩
      rcases ih ys (mainStep env I out k v fs).fs with ⟨h1, h2, h3⟩
      simp only [List.cons_append, runBatch, List.append_eq] at h1 h2 h3 ⊢
      refine ⟨?_, ?_, ?_⟩ <;>
        cases hok : (mainStep env I out k v fs).ok <;>
          simp only [hok, Bool.false_eq_true, if_false, if_true, h1, h2, h3] <;>
            omega
  · intro env I out k v rest fs hok
    refine ⟨?_, ?_, ?_⟩ <;>
      simp only [runBatch, hok, Bool.false_eq_true, if_false]
  · intro env I out k v fs
    unfold mainStep
    cases hc : classify k with
    | none => simp
    | some cv =>
      rcases cv with ⟨cat, vn⟩
      dsimp only
      have ht := pv_trace_cases env I cat vn (normalizeRecord v) out fs
      split <;>
        rcases ht with h | h | h | h | h <;> rw [h] <;> simp

/-- Witness for C7: a batch whose single entry has an unclassifiable key
ends with exactly one failure and keeps processing (the empty rest). -/
theorem failures_entry_local_witness :
    (runBatch envBad passI "out" [("unknown_thing_xyz", JsonV.null)] fs0).failed =
      (runBatch envBad passI "out" []
        (mainStep envBad passI "out" "unknown_thing_xyz" JsonV.null fs0).fs).failed + 1 :=
  (failures_entry_local.2.1 envBad passI "out" "unknown_thing_xyz" JsonV.null
    [] fs0 rfl).1

/-! ## C2 — the temp artifact is only cleaned up on the success path -/

/-- C2 counterexample: extraction succeeds but leaves an artifact that is
unreadable as an image; `process_video` returns `False` at the
`cv2.imread` check and the temporary extracted-frame artifact is left on
disk — it is NOT removed on this failure path. -/
theorem temp_artifact_leak_cex :
    (process_video envBad passI "cat" "vid" [("0", .obj [])] "out" fs0).out =
      .failure ∧
    (process_video envBad passI "cat" "vid" [("0", .obj [])] "out" fs0).fs
      (temp_path "out" "vid") = some .bad :=
  ⟨rfl, rfl⟩

/-- C2 (amended): the temporary extracted-frame artifact is removed when
the entry completes successfully (lines 167–168 run after the save); on
a failure after extraction — in particular when the extracted artifact is
unreadable as an image — `process_video` returns early and the artifact
is not removed. -/
theorem temp_artifact_removed_on_success :
    ∀ (env : Env) (I : Interp) (c v : String) (jd : List (String × JsonV))
      (out : String) (fs : FS),
    (process_video env I c v jd out fs).out = .success →
    (process_video env I c v jd out fs).fs (temp_path out v) = none := by
  intro env I c v jd out fs h
  rcases pv_cases env I c v jd out fs with ⟨_, hfs⟩ | ho | ho
  · exact hfs
  · rw [ho] at h
    exact PVOut.noConfusion h
  · rw [ho] at h
    exact PVOut.noConfusion h

/-- Witness for the amended C2: a successful concrete run leaves no temp
artifact behind. -/
theorem temp_artifact_removed_on_success_witness :
    (process_video envGood passI "cat" "vid" [("0", .obj [])] "out" fs0).fs
      (temp_path "out" "vid") = none :=
  temp_artifact_removed_on_success envGood passI "cat" "vid" [("0", .obj [])]
    "out" fs0 rfl

/-! ## C10 — output paths ignore the category, same video name collides -/

/-- A 3-row frame, extracted for the first entry of the collision run. -/
def frameA : Frame := ⟨3, 3, fun _ _ => (0, 0, 0)⟩

/-- A 5-row frame, extracted for the second entry of the collision run. -/
def frameB : Frame := ⟨5, 5, fun _ _ => (0, 0, 0)⟩

/-- An environment that extracts `frameA` for the `catA` copy of video
`vid` and `frameB` for every other asset path. -/
def envAB : Env :=
  ⟨fun path _ =>
    (true, some (.image
      (if path =
        "s3://rellingxgdm-raw/rellingxgdm-raw/rellingxgdm-raw/CLIPPED/catA/vid/vid_annotated_720p.mp4"
       then frameA else frameB)))⟩

/-- The annotation record used by both colliding entries. -/
def recAB : JsonV := .obj [("7", .obj [])]

/-- C10: a `process_video` run only ever writes or removes files at the
temp path and the output path of its video name — both independent of the
category — and concretely, for two entries `catA/vid` and `catB/vid` of a
batch, both succeed, the first writes its composite to the shared output
path, and after the batch that path holds the second entry's image, which
overwrote the first's distinct one. -/
theorem output_path_ignores_category :
    (∀ (env : Env) (I : Interp) (c v : String) (jd : List (String × JsonV))
        (out : String) (fs : FS) (p : String),
      (process_video env I c v jd out fs).fs p ≠ fs p →
      p = temp_path out v ∨ p = output_path out v) ∧
    ((runBatch envAB passI "out" [("catA/vid", recAB), ("catB/vid", recAB)]
        fs0).successful = 2 ∧
      (mainStep envAB passI "out" "catA/vid" recAB fs0).fs
        (output_path "out" "vid") = some (.image frameA) ∧
      (runBatch envAB passI "out" [("catA/vid", recAB), ("catB/vid", recAB)]
        fs0).fs (output_path "out" "vid") = some (.image frameB) ∧
      frameA ≠ frameB) := by
  constructor
  · intro env I c v jd out fs p hne
    by_cases h1 : p = temp_path out v
    · exact Or.inl h1
    · by_cases h2 : p = output_path out v
      · exact Or.inr h2
      · exact absurd (pv_footprint env I c v jd out fs p h1 h2) hne
  · refine ⟨rfl, rfl, rfl, ?_⟩
    intro h
    exact absurd (congrArg Frame.h h) (by decide)

/-- Witness for C10: the footprint clause applied to the concrete leaking
run — the only path it changed is the temp artifact path. -/
theorem output_path_ignores_category_witness :
    temp_path "out" "vid" = temp_path "out" "vid" ∨
      temp_path "out" "vid" = output_path "out" "vid" :=
  output_path_ignores_category.1 envBad passI "cat" "vid" [("0", .obj [])]
    "out" fs0 (temp_path "out" "vid")
    (fun h => Option.noConfusion
      (show (some FileData.bad : Option FileData) = none from h))

end SpotChecks
